import Mathlib

/-!
Verification development for the HydraMCP orchestration layer.

Shallow embedding of the TypeScript source: JS `Map` insertion-order
semantics are modelled as association lists, JS `Date.now()` timestamps as
explicit `Int` parameters, JS numbers holding token counts as `Nat`, and
floating-point ratio comparisons (`x > budget * 1.2`, `sim > 0.3`) as exact
rational comparisons over `ℚ` (for the integer operand sizes that occur,
IEEE double rounding of these constants never changes the comparison
outcome, because the exact ratios stay at distance at least 1/5 resp. 1/10
from the thresholds relative to the operands).
-/

namespace HydraMCP

/-! ## JS Map as an association list (insertion order preserved) -/

/-- Lookup in a JS `Map`: first entry with the key. -/
def mapGet {α : Type} (k : String) : List (String × α) → Option α
  | [] => none
  | (k', v) :: t => if k' = k then some v else mapGet k t

/-- JS `Map.delete`: removes the entry with the key (keys are unique). -/
def mapDelete {α : Type} (k : String) : List (String × α) → List (String × α)
  | [] => []
  | (k', v) :: t => if k' = k then t else (k', v) :: mapDelete k t

/-- JS `Map.set`: updates in place if the key exists (insertion position
kept), otherwise appends at the end. -/
def mapSet {α : Type} (k : String) (v : α) : List (String × α) → List (String × α)
  | [] => [(k, v)]
  | (k', v') :: t => if k' = k then (k, v) :: t else (k', v') :: mapSet k v t

/-! ## Circuit breaker (src/orchestrator/circuit-breaker.ts) -/

/-- Circuit states; the source string literals are "closed", "open",
"half-open" (`open` is a Lean keyword, hence `opened`). -/
inductive CircuitState where
  | closed
  | opened
  | halfOpen
  deriving DecidableEq

/-- Per-model circuit record (`ModelCircuit` in the source). -/
structure ModelCircuit where
  state : CircuitState
  failures : Nat
  lastFailureTime : Int
  deriving DecidableEq

structure CircuitBreakerConfig where
  maxFailures : Nat
  cooldownMs : Int
  deriving DecidableEq

/-- CircuitBreaker.isOpen for a single model record, returning the result
and the (possibly mutated) record. Mirrors the source: absent or closed
returns false; open transitions to half-open when the cooldown has expired
(allowing one retry); half-open allows the retry. -/
def CircuitBreaker.isOpen (cfg : CircuitBreakerConfig) (c : Option ModelCircuit)
    (now : Int) : Bool × Option ModelCircuit :=
  match c with
  | none => (false, none)
  | some circuit =>
    if circuit.state = CircuitState.closed then (false, some circuit)
    else if circuit.state = CircuitState.opened then
      if now - circuit.lastFailureTime ≥ cfg.cooldownMs then
        (false, some { circuit with state := CircuitState.halfOpen })
      else (true, some circuit)
    else (false, some circuit)

/-- CircuitBreaker.recordSuccess: the record is deleted (clean state = no
entry). -/
def CircuitBreaker.recordSuccess (c : Option ModelCircuit) : Option ModelCircuit :=
  match c with
  | none => none
  | some _ => none

/-- CircuitBreaker.recordFailure: increment failures, stamp the time, then
half-open goes back to open, and reaching maxFailures opens the circuit. -/
def CircuitBreaker.recordFailure (cfg : CircuitBreakerConfig)
    (c : Option ModelCircuit) (now : Int) : Option ModelCircuit :=
  let circuit := c.getD { state := CircuitState.closed, failures := 0, lastFailureTime := 0 }
  let circuit := { circuit with failures := circuit.failures + 1, lastFailureTime := now }
  let circuit :=
    if circuit.state = CircuitState.halfOpen then { circuit with state := CircuitState.opened }
    else if circuit.failures ≥ cfg.maxFailures then { circuit with state := CircuitState.opened }
    else circuit
  some circuit

/-- A sequence of consecutive recordFailure calls at the given times. -/
def CircuitBreaker.applyFailures (cfg : CircuitBreakerConfig)
    (c : Option ModelCircuit) (ts : List Int) : Option ModelCircuit :=
  ts.foldl (fun s t => CircuitBreaker.recordFailure cfg s t) c

/-- CircuitBreaker.isOpen at the map level (the source keys circuits by
model id in a Map). -/
def CircuitBreaker.isOpenMap (cfg : CircuitBreakerConfig)
    (circuits : List (String × ModelCircuit)) (model : String) (now : Int) :
    Bool × List (String × ModelCircuit) :=
  match mapGet model circuits with
  | none => (false, circuits)
  | some c =>
    match CircuitBreaker.isOpen cfg (some c) now with
    | (b, some c') => (b, mapSet model c' circuits)
    | (b, none) => (b, circuits)

/-- CircuitBreaker.recordSuccess at the map level: delete the record. -/
def CircuitBreaker.recordSuccessMap (circuits : List (String × ModelCircuit))
    (model : String) : List (String × ModelCircuit) :=
  mapDelete model circuits

/-- CircuitBreaker.recordFailure at the map level. -/
def CircuitBreaker.recordFailureMap (cfg : CircuitBreakerConfig)
    (circuits : List (String × ModelCircuit)) (model : String) (now : Int) :
    List (String × ModelCircuit) :=
  match CircuitBreaker.recordFailure cfg (mapGet model circuits) now with
  | some c => mapSet model c circuits
  | none => circuits

/-- CircuitBreaker.getOpenModels: models in the open state still within
their cooldown. -/
def CircuitBreaker.getOpenModels (cfg : CircuitBreakerConfig)
    (circuits : List (String × ModelCircuit)) (now : Int) : List String :=
  (circuits.filter (fun p =>
    decide (p.2.state = CircuitState.opened ∧ now - p.2.lastFailureTime < cfg.cooldownMs))).map
    (fun p => p.1)

/-! ## Provider data model (src/providers/provider.ts, not under src/ but
fully determined by its uses; field set as consumed by the sources) -/

structure Usage where
  prompt_tokens : Nat
  completion_tokens : Nat
  total_tokens : Nat
  deriving DecidableEq

structure QueryResponse where
  model : String
  content : String
  reasoning_content : Option String
  usage : Option Usage
  latency_ms : Int
  finish_reason : Option String
  warning : Option String
  fallback_from : Option String
  deriving DecidableEq

structure ModelInfo where
  id : String
  name : String
  provider : String
  deriving DecidableEq

/-- Error taxonomy, as far as the embedded code distinguishes errors. -/
inductive QueryError where
  | unavailable (model : String)
  | emptyResponse (model : String)
  | backend (message : String)
  deriving DecidableEq

/-! ## ResponseCache and ModelListCache (src/orchestrator/cache.ts) -/

structure CacheEntry where
  response : QueryResponse
  timestamp : Int
  deriving DecidableEq

structure ResponseCacheConfig where
  ttlMs : Int
  maxEntries : Nat
  deriving DecidableEq

/-- The string that ResponseCache.key feeds to the SHA-256 digest:
model, prompt and the JSON encoding of the options joined with a pipe.
The hex digest itself is platform code; the orchestrator embedding uses
this pre-digest string directly as the map key. -/
def ResponseCache.rawKey (model prompt optionsEnc : String) : String :=
  model ++ "|" ++ prompt ++ "|" ++ optionsEnc

/-- ResponseCache.get: miss on absent or expired (expired entries are
deleted); a hit deletes and re-adds the entry to move it to the end of the
insertion order (LRU promotion) and returns the stored response. -/
def ResponseCache.get (cfg : ResponseCacheConfig) (key : String)
    (cache : List (String × CacheEntry)) (now : Int) :
    Option QueryResponse × List (String × CacheEntry) :=
  match mapGet key cache with
  | none => (none, cache)
  | some entry =>
    if now - entry.timestamp > cfg.ttlMs then (none, mapDelete key cache)
    else (some entry.response, mapSet key entry (mapDelete key cache))

/-- ResponseCache.set: at capacity, delete the oldest entry first — but
the JS guard `if (oldest)` also skips the delete when the oldest key is
the empty string (falsy) — then insert. -/
def ResponseCache.set (cfg : ResponseCacheConfig) (key : String)
    (response : QueryResponse) (cache : List (String × CacheEntry)) (now : Int) :
    List (String × CacheEntry) :=
  let cache1 :=
    if cfg.maxEntries ≤ cache.length then
      match cache.head? with
      | some (oldest, _) => if oldest = "" then cache else mapDelete oldest cache
      | none => cache
    else cache
  mapSet key { response := response, timestamp := now } cache1

structure ModelListCacheState where
  models : Option (List ModelInfo)
  timestamp : Int
  deriving DecidableEq

structure ModelListCacheConfig where
  ttlMs : Int
  deriving DecidableEq

/-- ModelListCache.get: cached list, or none when absent or stale (stale
clears the slot). -/
def ModelListCache.get (cfg : ModelListCacheConfig) (st : ModelListCacheState)
    (now : Int) : Option (List ModelInfo) × ModelListCacheState :=
  match st.models with
  | none => (none, st)
  | some ms =>
    if now - st.timestamp > cfg.ttlMs then (none, { st with models := none })
    else (some ms, st)

/-- ModelListCache.set: store the list with the current time. -/
def ModelListCache.set (models : List ModelInfo) (now : Int) : ModelListCacheState :=
  { models := some models, timestamp := now }

/-! ## String helpers (JS string methods modelled over character lists) -/

/-- JS toLowerCase over the characters of a string. -/
def lowerChars (s : String) : List Char := s.data.map Char.toLower

/-- Does the haystack start with the needle (first argument). -/
def beginsWith : List Char → List Char → Bool
  | [], _ => true
  | _ :: _, [] => false
  | a :: as, b :: bs => a == b && beginsWith as bs

/-- JS String.includes: needle occurs somewhere in the haystack. -/
def occursIn (needle : List Char) : List Char → Bool
  | [] => beginsWith needle []
  | c :: t => beginsWith needle (c :: t) || occursIn needle t

/-- Word character for the JS regex word-boundary class backslash-w. -/
def wordChar (c : Char) : Bool := c.isAlphanum || c == '_'

/-- JS String.trim over characters: strip whitespace from both ends. -/
def trimChars (l : List Char) : List Char :=
  ((l.dropWhile Char.isWhitespace).reverse.dropWhile Char.isWhitespace).reverse

/-- The last segment of a slash-separated id: `split("/").pop()`. -/
def lastSegChars (l : List Char) : List Char :=
  l.foldl (fun acc c => if c = '/' then [] else acc ++ [c]) []

/-- The last segment of a slash-separated id, as a string. -/
def lastSegment (s : String) : String := ⟨lastSegChars s.data⟩

/-! ## Reasoning-model detection (src/utils/reasoning-models.ts) -/

/-- Matcher for the case-insensitive regex for an o-series id followed by
a dash, with a word boundary before the letter o; the boolean argument
tracks whether the previous character was a word character. -/
def matchOSeriesDash : Bool → List Char → Bool
  | _, [] => false
  | prevW, c :: rest =>
    (c == 'o' && !prevW &&
      (match rest with
       | d :: dash :: _ => (d == '1' || d == '3') && dash == '-'
       | _ => false)) ||
    matchOSeriesDash (wordChar c) rest

/-- Matcher for the case-insensitive regex for an o-series id at the end
of the string, with a word boundary before the letter o. -/
def matchOSeriesEnd : Bool → List Char → Bool
  | _, [] => false
  | prevW, c :: rest =>
    (c == 'o' && !prevW &&
      (match rest with
       | [d] => d == '1' || d == '3'
       | _ => false)) ||
    matchOSeriesEnd (wordChar c) rest

/-- Matcher for gemini followed (anywhere later) by think. -/
def matchGeminiThink : List Char → Bool
  | [] => false
  | c :: t =>
    (beginsWith "gemini".data (c :: t) && occursIn "think".data ((c :: t).drop 6)) ||
    matchGeminiThink t

/-- isReasoningModel: the id matches one of the reasoning-model patterns
(the source holds them as case-insensitive regexes; all literals here are
already lowercase and the id is lowered first). -/
def isReasoningModel (model : String) : Bool :=
  let m := lowerChars model
  occursIn "deepseek-r1".data m ||
  occursIn "qwen3-235b".data m ||
  occursIn "qwen3-30b".data m ||
  matchOSeriesDash false m ||
  matchOSeriesEnd false m ||
  matchGeminiThink m ||
  occursIn "gemini-3-pro".data m

/-! ## Response validation (src/utils/response-validator.ts) -/

/-- validateResponse: fewer than 10 characters of trimmed content with no
(truthy) reasoning content is an EmptyResponseError; a length finish
reason tags the response with a truncation warning. -/
def validateResponse (r : QueryResponse) : Except QueryError QueryResponse :=
  if (trimChars r.content.data).length < 10 ∧ (r.reasoning_content.getD "") = "" then
    Except.error (QueryError.emptyResponse r.model)
  else if r.finish_reason = some "length" then
    Except.ok { r with warning := some "truncated" }
  else Except.ok r

/-! ## CLIProxyAPI backend response assembly (src/providers/cliproxyapi.ts) -/

structure ChatMessage where
  content : Option String
  reasoning_content : Option String
  deriving DecidableEq

structure ChatChoice where
  message : Option ChatMessage
  finish_reason : Option String
  deriving DecidableEq

/-- Parsed body of a chat-completions reply. -/
structure ChatCompletionData where
  choices : List ChatChoice
  usage : Option Usage
  deriving DecidableEq

/-- Prefix attached when a reasoning model produced reasoning but no final
answer. -/
def reasoningFallbackNote : String :=
  "*[Model produced reasoning but no final answer — showing reasoning output]*\n\n"

/-- CLIProxyAPIProvider.query response assembly from a parsed HTTP body:
latency is wall time from the start of the query to the receipt of the
body, content falls back to the reasoning text for reasoning models, and
the result passes through validateResponse. -/
def CLIProxyAPIProvider.buildResponse (model : String) (data : ChatCompletionData)
    (startTime endTime : Int) : Except QueryError QueryResponse :=
  let latency_ms := endTime - startTime
  let choice := data.choices.head?
  let contentRaw := ((choice.bind (fun c => c.message)).bind (fun m => m.content)).getD ""
  let reasoningContent := (choice.bind (fun c => c.message)).bind (fun m => m.reasoning_content)
  let content :=
    if contentRaw = "" ∧ (reasoningContent.getD "") ≠ "" ∧ isReasoningModel model then
      reasoningFallbackNote ++ reasoningContent.getD ""
    else contentRaw
  validateResponse
    { model := model, content := content, reasoning_content := reasoningContent,
      usage := data.usage, latency_ms := latency_ms,
      finish_reason := choice.bind (fun c => c.finish_reason),
      warning := none, fallback_from := none }

/-! ## SmartProvider, the orchestrator (src/orchestrator/index.ts) -/

structure SmartConfig where
  cb : CircuitBreakerConfig
  cacheTtlMs : Int
  cacheMaxEntries : Nat
  modelListTtlMs : Int
  enableCache : Bool
  enableCircuitBreaker : Bool
  deriving DecidableEq

structure SmartState where
  circuits : List (String × ModelCircuit)
  cache : List (String × CacheEntry)
  deriving DecidableEq

instance {ε α : Type} [DecidableEq ε] [DecidableEq α] : DecidableEq (Except ε α) := fun a b =>
  match a, b with
  | Except.ok x, Except.ok y =>
    if h : x = y then isTrue (by rw [h]) else isFalse (by intro hc; cases hc; exact h rfl)
  | Except.error x, Except.error y =>
    if h : x = y then isTrue (by rw [h]) else isFalse (by intro hc; cases hc; exact h rfl)
  | Except.ok _, Except.error _ => isFalse (by intro hc; cases hc)
  | Except.error _, Except.ok _ => isFalse (by intro hc; cases hc)

structure QueryOutcome where
  result : Except QueryError QueryResponse
  state : SmartState
  cacheHit : Bool
  deriving DecidableEq

/-- SmartProvider.query: circuit gate, then cache lookup (hits are
returned with latency_ms set to 0), then dispatch to the inner provider
(passed here as its already-computed result), recording circuit
success/failure and caching successful responses. `cacheHit` records which
path produced the result. -/
def SmartProvider.query (cfg : SmartConfig) (st : SmartState)
    (model prompt optionsEnc : String) (now : Int)
    (inner : Except QueryError QueryResponse) : QueryOutcome :=
  let gate :=
    if cfg.enableCircuitBreaker then CircuitBreaker.isOpenMap cfg.cb st.circuits model now
    else (false, st.circuits)
  if gate.1 then
    { result := Except.error (QueryError.unavailable model),
      state := { circuits := gate.2, cache := st.cache }, cacheHit := false }
  else
    let key := ResponseCache.rawKey model prompt optionsEnc
    let rcCfg : ResponseCacheConfig := { ttlMs := cfg.cacheTtlMs, maxEntries := cfg.cacheMaxEntries }
    match (if cfg.enableCache then ResponseCache.get rcCfg key st.cache now else (none, st.cache)) with
    | (some cached, cache1) =>
      { result := Except.ok { cached with latency_ms := 0 },
        state := { circuits := gate.2, cache := cache1 }, cacheHit := true }
    | (none, cache1) =>
      match inner with
      | Except.ok r =>
        let circuits2 :=
          if cfg.enableCircuitBreaker then CircuitBreaker.recordSuccessMap gate.2 model else gate.2
        let cache2 :=
          if cfg.enableCache then ResponseCache.set rcCfg key r cache1 now else cache1
        { result := Except.ok r,
          state := { circuits := circuits2, cache := cache2 }, cacheHit := false }
      | Except.error e =>
        let circuits2 :=
          if cfg.enableCircuitBreaker then CircuitBreaker.recordFailureMap cfg.cb gate.2 model now
          else gate.2
        { result := Except.error e,
          state := { circuits := circuits2, cache := cache1 }, cacheHit := false }

/-- First half of SmartProvider.listModels: resolve the catalog from the
model-list cache when enabled and fresh, otherwise take the inner
catalog and store it. -/
def SmartProvider.resolveCatalog (cfg : SmartConfig) (mlc : ModelListCacheState)
    (innerModels : List ModelInfo) (now : Int) :
    List ModelInfo × ModelListCacheState :=
  if cfg.enableCache then
    match ModelListCache.get { ttlMs := cfg.modelListTtlMs } mlc now with
    | (some cached, mlc') => (cached, mlc')
    | (none, _) => (innerModels, ModelListCache.set innerModels now)
  else (innerModels, mlc)

/-- SmartProvider.listModels: resolve the catalog (cached or fresh), then
always filter out ids currently reported open by the circuit breaker
(the filter compares catalog id strings against getOpenModels exactly). -/
def SmartProvider.listModels (cfg : SmartConfig)
    (circuits : List (String × ModelCircuit)) (mlc : ModelListCacheState)
    (innerModels : List ModelInfo) (now : Int) :
    List ModelInfo × ModelListCacheState :=
  let resolved := SmartProvider.resolveCatalog cfg mlc innerModels now
  if cfg.enableCircuitBreaker then
    let openModels := CircuitBreaker.getOpenModels cfg.cb circuits now
    if openModels ≠ [] then
      (resolved.1.filter (fun m => !(openModels.contains m.id)), resolved.2)
    else resolved
  else resolved

/-! ## Distillation utilities (src/utils/compress.ts) -/

def PREFERRED_COMPRESSOR_MODELS : List String :=
  ["gemini-2.5-flash-lite", "gemini-2.5-flash", "gemini-3-flash",
   "claude-3-5-haiku", "claude-haiku-4-5", "gpt-5-codex-mini", "gpt-5.1-codex-mini"]

/-- Exclusion test inside pickCompressorModel: a candidate id is excluded
when it equals (case-insensitively) the worker model id or its bare name
after the provider prefix; JS truthiness makes an empty worker id exclude
nothing. -/
def isExcluded (excludeModel : Option String) (id : String) : Bool :=
  match excludeModel with
  | none => false
  | some ex =>
    if ex = "" then false
    else
      let lower := lowerChars id
      lower == lowerChars ex || lower == lowerChars (lastSegment ex)

/-- pickCompressorModel: empty catalog gives none; otherwise the first
preferred-list hit not excluded, else any non-excluded model, else — last
resort — the first available model (even the worker itself). -/
def pickCompressorModel (available : List ModelInfo) (excludeModel : Option String) :
    Option String :=
  if available.isEmpty then none
  else
    match PREFERRED_COMPRESSOR_MODELS.findSome? (fun preferred =>
        (available.find? (fun m =>
          occursIn preferred.data (lowerChars m.id) && !(isExcluded excludeModel m.id))).map
          (fun m => m.id)) with
    | some id => some id
    | none =>
      match available.find? (fun m => !(isExcluded excludeModel m.id)) with
      | some m => some m.id
      | none => (available.head?).map (fun m => m.id)

/-- Token estimate from character count: industry-standard ceiling of a
quarter of the content length. -/
def estTokens (r : QueryResponse) : Nat := (r.content.data.length + 3) / 4

/-- The token count the shouldCompress gate observes: the reported
completion tokens when present and nonzero (a JS truthiness check), else
the character-count estimate. -/
def observedTokens (r : QueryResponse) : Nat :=
  match r.usage with
  | some u => if u.completion_tokens ≠ 0 then u.completion_tokens else estTokens r
  | none => estTokens r

/-- shouldCompress: observed tokens must strictly exceed the budget times
1.2 for compression to run; the float product is modelled exactly as the
rational six fifths. -/
def shouldCompress (r : QueryResponse) (maxResponseTokens : Nat) : Bool :=
  let threshold : ℚ := (maxResponseTokens : ℚ) * (6 / 5)
  match r.usage with
  | some u =>
    if u.completion_tokens ≠ 0 then decide ((u.completion_tokens : ℚ) > threshold)
    else decide ((estTokens r : ℚ) > threshold)
  | none => decide ((estTokens r : ℚ) > threshold)

structure CompressionResult where
  content : String
  compressed : Bool
  compressorModel : Option String
  compressorLatency : Option Int
  originalTokens : Option Nat
  compressedTokens : Option Nat
  rawContent : Option String
  deriving DecidableEq

/-- Token accounting inside compressResponse: reported completion tokens
via a JS nullish check (zero counts as reported), else the estimate. -/
def reportedOrEstimate (r : QueryResponse) : Nat :=
  match r.usage with
  | some u => u.completion_tokens
  | none => estTokens r

/-- Environment of compressResponse: the catalog pickCompressorModel sees
and the result of the distiller query (none models its failure). -/
structure DistillerEnv where
  available : List ModelInfo
  distillerReply : Option QueryResponse

/-- compressResponse: skip (raw content, not compressed) unless the
shouldCompress gate passes; then pick a compressor excluding the worker
model, query it, and return the distilled content with metadata; any
failure falls back to the raw content. -/
def compressResponse (env : DistillerEnv) (r : QueryResponse)
    (maxResponseTokens : Nat) : CompressionResult :=
  if !(shouldCompress r maxResponseTokens) then
    { content := r.content, compressed := false, compressorModel := none,
      compressorLatency := none, originalTokens := none, compressedTokens := none,
      rawContent := none }
  else
    match pickCompressorModel env.available (some r.model) with
    | none =>
      { content := r.content, compressed := false, compressorModel := none,
        compressorLatency := none, originalTokens := none, compressedTokens := none,
        rawContent := none }
    | some compressorModel =>
      let originalTokens := reportedOrEstimate r
      match env.distillerReply with
      | none =>
        { content := r.content, compressed := false, compressorModel := none,
          compressorLatency := none, originalTokens := none, compressedTokens := none,
          rawContent := none }
      | some cr =>
        { content := cr.content, compressed := true, compressorModel := some compressorModel,
          compressorLatency := some cr.latency_ms, originalTokens := some originalTokens,
          compressedTokens := some (reportedOrEstimate cr), rawContent := some r.content }

/-! ## Consensus keyword fallback (src/tools/consensus.ts) -/

/-- Split a character list at whitespace runs, keeping the non-empty
words (the JS split can also emit one leading empty string, which the
length filter always removes). -/
def splitWsAux (cur : List Char) : List Char → List (List Char)
  | [] => if cur.isEmpty then [] else [cur.reverse]
  | c :: rest =>
    if c.isWhitespace then
      (if cur.isEmpty then splitWsAux [] rest else cur.reverse :: splitWsAux [] rest)
    else splitWsAux (c :: cur) rest

/-- Deduplicate keeping the first occurrence (JS Set insertion order). -/
def dedupFirst (seen : List (List Char)) : List (List Char) → List (List Char)
  | [] => []
  | x :: xs => if x ∈ seen then dedupFirst seen xs else x :: dedupFirst (x :: seen) xs

/-- The keyword set of a response: lowercase, split on whitespace, keep
words longer than 4 characters, as a set (deduplicated). -/
def keywordsOf (s : String) : List (List Char) :=
  dedupFirst [] ((splitWsAux [] (s.data.map Char.toLower)).filter (fun w => 4 < w.length))

/-- responsesAgreeByKeywords: false when either keyword set is empty,
else the overlap count divided by the LARGER set size must exceed 0.3
(the float literal is modelled exactly as three tenths). -/
def responsesAgreeByKeywords (a b : String) : Bool :=
  let wordsA := keywordsOf a
  let wordsB := keywordsOf b
  if wordsA.length = 0 ∨ wordsB.length = 0 then false
  else
    let overlap := (wordsA.filter (fun w => wordsB.contains w)).length
    decide ((overlap : ℚ) / (max wordsA.length wordsB.length : ℚ) > 3 / 10)

structure ModelVote where
  model : String
  content : String
  deriving DecidableEq

/-- keywordFallback: the first successful response is the baseline pivot
and always agrees; each later response joins the agreeing side exactly
when responsesAgreeByKeywords accepts it against the baseline. -/
def keywordFallback : List ModelVote → List ModelVote × List ModelVote
  | [] => ([], [])
  | baseline :: rest =>
    (baseline :: rest.filter (fun v => responsesAgreeByKeywords baseline.content v.content),
     rest.filter (fun v => !(responsesAgreeByKeywords baseline.content v.content)))

/-- Modelled from the spec: the Jaccard similarity of the two keyword
sets, intersection size over union size, which the spec says decides
agreement at the 0.3 threshold. Stated for comparison with the source
function responsesAgreeByKeywords. -/
def jaccardSimilaritySpec (a b : String) : ℚ :=
  let wordsA := keywordsOf a
  let wordsB := keywordsOf b
  ((wordsA.filter (fun w => wordsB.contains w)).length : ℚ) /
    ((wordsA ++ wordsB.filter (fun w => !(wordsA.contains w))).length : ℚ)

/-! ## Auxiliary definitions used by the statements -/

/-- Last element of a time list, with a default. -/
def lastD (d : Int) : List Int → Int
  | [] => d
  | t :: ts => lastD t ts

/-- The CircuitRecord data invariant, evaluated at the time of the last
operation: a record in the closed state has a failure count strictly
between 0 and maxFailures, and a record in the open state is still within
its cooldown. -/
def CircuitInv (cfg : CircuitBreakerConfig) (now : Int) (c : Option ModelCircuit) : Prop :=
  ∀ r, c = some r →
    (r.state = CircuitState.closed → 1 ≤ r.failures ∧ r.failures < cfg.maxFailures) ∧
    (r.state = CircuitState.opened → now - r.lastFailureTime < cfg.cooldownMs)

/-- DEFAULT_CONFIG from src/orchestrator/config.ts (circuit breaker: 3
failures, 60 s cooldown; query cache: 15 min, 100 entries; model-list
cache: 30 s; both features enabled), as a SmartConfig. -/
def DEFAULT_CONFIG : SmartConfig :=
  { cb := { maxFailures := 3, cooldownMs := 60000 }, cacheTtlMs := 900000,
    cacheMaxEntries := 100, modelListTtlMs := 30000, enableCache := true,
    enableCircuitBreaker := true }

/-- A small chat-completions reply used in concrete instances. -/
def helloChatData : ChatCompletionData :=
  { choices := [{ message := some { content := some "hello world!",
                                    reasoning_content := none },
                  finish_reason := some "stop" }],
    usage := some { prompt_tokens := 1, completion_tokens := 1, total_tokens := 2 } }

/-- The response helloChatData assembles to, at a given latency. -/
def helloResponse (lat : Int) : QueryResponse :=
  { model := "m1", content := "hello world!", reasoning_content := none,
    usage := some { prompt_tokens := 1, completion_tokens := 1, total_tokens := 2 },
    latency_ms := lat, finish_reason := some "stop", warning := none,
    fallback_from := none }

/-! # Theorems -/

/-! ## Circuit-breaker stepping lemmas -/

theorem recordFailure_closed_lt (cfg : CircuitBreakerConfig) (k : Nat) (l t : Int)
    (h : k + 1 < cfg.maxFailures) :
    CircuitBreaker.recordFailure cfg (some ⟨CircuitState.closed, k, l⟩) t =
      some ⟨CircuitState.closed, k + 1, t⟩ := by
  simp only [CircuitBreaker.recordFailure, Option.getD_some]
  rw [if_neg (by simp), if_neg (by omega)]

theorem recordFailure_closed_ge (cfg : CircuitBreakerConfig) (k : Nat) (l t : Int)
    (h : cfg.maxFailures ≤ k + 1) :
    CircuitBreaker.recordFailure cfg (some ⟨CircuitState.closed, k, l⟩) t =
      some ⟨CircuitState.opened, k + 1, t⟩ := by
  simp only [CircuitBreaker.recordFailure, Option.getD_some]
  rw [if_neg (by simp), if_pos (by omega)]

theorem recordFailure_opened_eq (cfg : CircuitBreakerConfig) (k : Nat) (l t : Int) :
    CircuitBreaker.recordFailure cfg (some ⟨CircuitState.opened, k, l⟩) t =
      some ⟨CircuitState.opened, k + 1, t⟩ := by
  simp only [CircuitBreaker.recordFailure, Option.getD_some]
  rw [if_neg (by simp)]
  split <;> rfl

theorem recordFailure_halfOpen_eq (cfg : CircuitBreakerConfig) (k : Nat) (l t : Int) :
    CircuitBreaker.recordFailure cfg (some ⟨CircuitState.halfOpen, k, l⟩) t =
      some ⟨CircuitState.opened, k + 1, t⟩ := by
  simp only [CircuitBreaker.recordFailure, Option.getD_some]
  rw [if_pos (by simp)]

theorem isOpen_closed_eq (cfg : CircuitBreakerConfig) (k : Nat) (l now : Int) :
    CircuitBreaker.isOpen cfg (some ⟨CircuitState.closed, k, l⟩) now =
      (false, some ⟨CircuitState.closed, k, l⟩) := by
  simp [CircuitBreaker.isOpen]

theorem isOpen_halfOpen_eq (cfg : CircuitBreakerConfig) (k : Nat) (l now : Int) :
    CircuitBreaker.isOpen cfg (some ⟨CircuitState.halfOpen, k, l⟩) now =
      (false, some ⟨CircuitState.halfOpen, k, l⟩) := by
  simp [CircuitBreaker.isOpen]

theorem isOpen_opened_lt (cfg : CircuitBreakerConfig) (k : Nat) (l now : Int)
    (h : now - l < cfg.cooldownMs) :
    CircuitBreaker.isOpen cfg (some ⟨CircuitState.opened, k, l⟩) now =
      (true, some ⟨CircuitState.opened, k, l⟩) := by
  simp only [CircuitBreaker.isOpen]
  rw [if_neg (by simp), if_pos (by simp), if_neg (by omega)]

theorem isOpen_opened_ge (cfg : CircuitBreakerConfig) (k : Nat) (l now : Int)
    (h : cfg.cooldownMs ≤ now - l) :
    CircuitBreaker.isOpen cfg (some ⟨CircuitState.opened, k, l⟩) now =
      (false, some ⟨CircuitState.halfOpen, k, l⟩) := by
  simp only [CircuitBreaker.isOpen]
  rw [if_neg (by simp), if_pos (by simp), if_pos (by omega)]

theorem applyFailures_concat (cfg : CircuitBreakerConfig) (s : Option ModelCircuit)
    (l : List Int) (x : Int) :
    CircuitBreaker.applyFailures cfg s (l ++ [x]) =
      CircuitBreaker.recordFailure cfg (CircuitBreaker.applyFailures cfg s l) x := by
  simp [CircuitBreaker.applyFailures, List.foldl_append]

theorem applyFailures_closed (cfg : CircuitBreakerConfig) (ts : List Int) :
    ∀ (k : Nat) (l : Int), k + ts.length < cfg.maxFailures →
    CircuitBreaker.applyFailures cfg (some ⟨CircuitState.closed, k, l⟩) ts =
      some ⟨CircuitState.closed, k + ts.length, lastD l ts⟩ := by
  induction ts with
  | nil => intro k l _; simp [CircuitBreaker.applyFailures, lastD]
  | cons t ts ih =>
    intro k l h
    have hstep : CircuitBreaker.applyFailures cfg (some ⟨CircuitState.closed, k, l⟩) (t :: ts) =
        CircuitBreaker.applyFailures cfg (some ⟨CircuitState.closed, k + 1, t⟩) ts := by
      simp only [CircuitBreaker.applyFailures, List.foldl_cons]
      rw [recordFailure_closed_lt cfg k l t (by simp at h; omega)]
    rw [hstep, ih (k + 1) t (by simp at h ⊢; omega)]
    simp [lastD]
    omega

theorem applyFailures_none_cons (cfg : CircuitBreakerConfig) (t : Int) (ts : List Int) :
    CircuitBreaker.applyFailures cfg none (t :: ts) =
      CircuitBreaker.applyFailures cfg (some ⟨CircuitState.closed, 0, 0⟩) (t :: ts) := rfl

/-- C1: after maxFailures consecutive recordFailure calls from a clean
state the circuit is open with the last failure time stamped; every
isOpen read within the cooldown returns true and leaves the record
unchanged; a read at or past the cooldown returns false (permitting the
probe) and moves the record to half-open; from half-open a recorded
success deletes the record (closed), and a recorded failure reopens the
circuit with a fresh cooldown anchored at the failure time. -/
theorem c1_circuit_breaker_lifecycle (cfg : CircuitBreakerConfig)
    (init : List Int) (tlast : Int) (hlen : init.length + 1 = cfg.maxFailures) :
    CircuitBreaker.applyFailures cfg none (init ++ [tlast]) =
      some ⟨CircuitState.opened, cfg.maxFailures, tlast⟩ ∧
    (∀ t : Int, t - tlast < cfg.cooldownMs →
      CircuitBreaker.isOpen cfg (some ⟨CircuitState.opened, cfg.maxFailures, tlast⟩) t =
        (true, some ⟨CircuitState.opened, cfg.maxFailures, tlast⟩)) ∧
    (∀ t : Int, cfg.cooldownMs ≤ t - tlast →
      CircuitBreaker.isOpen cfg (some ⟨CircuitState.opened, cfg.maxFailures, tlast⟩) t =
        (false, some ⟨CircuitState.halfOpen, cfg.maxFailures, tlast⟩)) ∧
    CircuitBreaker.recordSuccess (some ⟨CircuitState.halfOpen, cfg.maxFailures, tlast⟩) = none ∧
    (∀ t' : Int,
      CircuitBreaker.recordFailure cfg
          (some ⟨CircuitState.halfOpen, cfg.maxFailures, tlast⟩) t' =
        some ⟨CircuitState.opened, cfg.maxFailures + 1, t'⟩ ∧
      ∀ u : Int, u - t' < cfg.cooldownMs →
        CircuitBreaker.isOpen cfg (some ⟨CircuitState.opened, cfg.maxFailures + 1, t'⟩) u =
          (true, some ⟨CircuitState.opened, cfg.maxFailures + 1, t'⟩)) := by
  refine ⟨?_, ?_, ?_, rfl, ?_⟩
  · have h0 : CircuitBreaker.applyFailures cfg none (init ++ [tlast]) =
        CircuitBreaker.applyFailures cfg (some ⟨CircuitState.closed, 0, 0⟩) (init ++ [tlast]) := by
      cases init with
      | nil => rfl
      | cons a as => rfl
    rw [h0, applyFailures_concat,
      applyFailures_closed cfg init 0 0 (by omega),
      recordFailure_closed_ge cfg (0 + init.length) (lastD 0 init) tlast (by omega)]
    have : 0 + init.length + 1 = cfg.maxFailures := by omega
    rw [this]
  · intro t ht
    exact isOpen_opened_lt cfg cfg.maxFailures tlast t ht
  · intro t ht
    exact isOpen_opened_ge cfg cfg.maxFailures tlast t ht
  · intro t'
    refine ⟨recordFailure_halfOpen_eq cfg cfg.maxFailures tlast t', ?_⟩
    intro u hu
    exact isOpen_opened_lt cfg (cfg.maxFailures + 1) t' u hu

/-- Witness for C1 at the default configuration: three failures at times
1, 2, 3 open the circuit; a read at 60002 is still rejected, a read at
60003 flips to half-open and is permitted; success resets; a half-open
failure at 70000 reopens and a read at 70001 is rejected again. -/
theorem c1_circuit_breaker_lifecycle_witness :
    CircuitBreaker.applyFailures ⟨3, 60000⟩ none ([1, 2] ++ [3]) =
      some ⟨CircuitState.opened, 3, 3⟩ ∧
    CircuitBreaker.isOpen ⟨3, 60000⟩ (some ⟨CircuitState.opened, 3, 3⟩) 60002 =
      (true, some ⟨CircuitState.opened, 3, 3⟩) ∧
    CircuitBreaker.isOpen ⟨3, 60000⟩ (some ⟨CircuitState.opened, 3, 3⟩) 60003 =
      (false, some ⟨CircuitState.halfOpen, 3, 3⟩) ∧
    CircuitBreaker.recordSuccess (some ⟨CircuitState.halfOpen, 3, 3⟩) = none ∧
    CircuitBreaker.recordFailure ⟨3, 60000⟩ (some ⟨CircuitState.halfOpen, 3, 3⟩) 70000 =
      some ⟨CircuitState.opened, 4, 70000⟩ ∧
    CircuitBreaker.isOpen ⟨3, 60000⟩ (some ⟨CircuitState.opened, 4, 70000⟩) 70001 =
      (true, some ⟨CircuitState.opened, 4, 70000⟩) := by
  have h := c1_circuit_breaker_lifecycle ⟨3, 60000⟩ [1, 2] 3 (by decide)
  exact ⟨h.1, h.2.1 60002 (by decide), h.2.2.1 60003 (by decide), h.2.2.2.1,
    (h.2.2.2.2 70000).1, (h.2.2.2.2 70000).2 70001 (by decide)⟩

/-- C5 counterexample: with maxFailures 2, a single recordFailure from
the clean state leaves a record that exists, is in the closed state, and
carries a consecutive-failure count of 1 — not 0 as the claim states, so
a closed record does not imply a zero count. -/
theorem c5_closed_record_with_nonzero_failures :
    CircuitBreaker.recordFailure ⟨2, 100⟩ none 5 =
      some ⟨CircuitState.closed, 1, 5⟩ ∧
    ¬((1 : Nat) = 0) := by decide

/-- C5 (amended): the invariant preserved by every CircuitBreaker
operation is: a record present in the closed state has a failure count
at least 1 and strictly below maxFailures (not 0), and a record in the
open state satisfies now − lastFailureTime < cooldown at the completion
time of each operation (for a positive cooldown). The empty state
satisfies the invariant, and each of isOpen, recordFailure and
recordSuccess re-establishes it at its own time. -/
theorem c5_circuit_record_invariant (cfg : CircuitBreakerConfig)
    (hcool : 0 < cfg.cooldownMs) (c : Option ModelCircuit) (t0 t : Int)
    (h : CircuitInv cfg t0 c) :
    CircuitInv cfg t none ∧
    CircuitInv cfg t (CircuitBreaker.isOpen cfg c t).2 ∧
    CircuitInv cfg t (CircuitBreaker.recordFailure cfg c t) ∧
    CircuitInv cfg t (CircuitBreaker.recordSuccess c) := by
  refine ⟨?_, ?_, ?_, ?_⟩
  · intro r hr; cases hr
  · -- isOpen preserves the invariant
    cases c with
    | none => intro r hr; cases hr
    | some circuit =>
      rcases circuit with ⟨st, k, l⟩
      cases st with
      | closed =>
        rw [isOpen_closed_eq]
        intro r hr
        cases hr
        refine ⟨fun _ => ?_, fun hst => by cases hst⟩
        exact (h ⟨CircuitState.closed, k, l⟩ rfl).1 rfl
      | opened =>
        by_cases hc : cfg.cooldownMs ≤ t - l
        · rw [isOpen_opened_ge cfg k l t hc]
          intro r hr
          cases hr
          constructor
          · intro hst; exact CircuitState.noConfusion hst
          · intro hst; exact CircuitState.noConfusion hst
        · rw [isOpen_opened_lt cfg k l t (by omega)]
          intro r hr
          cases hr
          constructor
          · intro hst; exact CircuitState.noConfusion hst
          · intro _; show t - l < cfg.cooldownMs; omega
      | halfOpen =>
        rw [isOpen_halfOpen_eq]
        intro r hr
        cases hr
        constructor
        · intro hst; exact CircuitState.noConfusion hst
        · intro hst; exact CircuitState.noConfusion hst
  · -- recordFailure establishes the invariant at its own time
    have hgen : ∀ (st : CircuitState) (k : Nat) (l : Int),
        CircuitInv cfg t (CircuitBreaker.recordFailure cfg (some ⟨st, k, l⟩) t) := by
      intro st k l
      cases st with
      | closed =>
        by_cases hk : k + 1 < cfg.maxFailures
        · rw [recordFailure_closed_lt cfg k l t hk]
          intro r hr
          cases hr
          constructor
          · intro _
            constructor
            · show 1 ≤ k + 1; omega
            · show k + 1 < cfg.maxFailures; omega
          · intro hst; exact CircuitState.noConfusion hst
        · rw [recordFailure_closed_ge cfg k l t (by omega)]
          intro r hr
          cases hr
          constructor
          · intro hst; exact CircuitState.noConfusion hst
          · intro _; show t - t < cfg.cooldownMs; omega
      | opened =>
        rw [recordFailure_opened_eq]
        intro r hr
        cases hr
        constructor
        · intro hst; exact CircuitState.noConfusion hst
        · intro _; show t - t < cfg.cooldownMs; omega
      | halfOpen =>
        rw [recordFailure_halfOpen_eq]
        intro r hr
        cases hr
        constructor
        · intro hst; exact CircuitState.noConfusion hst
        · intro _; show t - t < cfg.cooldownMs; omega
    cases c with
    | none => exact hgen CircuitState.closed 0 0
    | some circuit => rcases circuit with ⟨st, k, l⟩; exact hgen st k l
  · -- recordSuccess deletes the record
    have hnone : CircuitBreaker.recordSuccess c = none := by cases c <;> rfl
    rw [hnone]
    intro r hr
    cases hr

/-- Witness for C5: a satisfiable instance of the amended invariant,
applied at the reachable closed record with one failure under
maxFailures 2 and cooldown 100. -/
theorem c5_circuit_record_invariant_witness :
    (0 : Int) < 100 ∧
    CircuitInv ⟨2, 100⟩ 9
      (CircuitBreaker.recordFailure ⟨2, 100⟩ (some ⟨CircuitState.closed, 1, 5⟩) 9) := by
  have hinv : CircuitInv ⟨2, 100⟩ 5 (some ⟨CircuitState.closed, 1, 5⟩) := by
    intro r hr
    cases hr
    exact ⟨fun _ => ⟨by decide, by decide⟩, fun hst => by cases hst⟩
  exact ⟨by decide,
    (c5_circuit_record_invariant ⟨2, 100⟩ (by decide)
      (some ⟨CircuitState.closed, 1, 5⟩) 5 9 hinv).2.2.1⟩

/-! ## Association-list lemmas -/

theorem mapGet_mapSet_self {α : Type} (k : String) (v : α) (l : List (String × α)) :
    mapGet k (mapSet k v l) = some v := by
  induction l with
  | nil => simp [mapSet, mapGet]
  | cons p t ih =>
    rcases p with ⟨k', v'⟩
    by_cases hk : k' = k
    · simp [mapSet, mapGet, hk]
    · simp [mapSet, mapGet, hk, ih]

theorem mapGet_mapSet_ne {α : Type} (k k' : String) (v : α) (l : List (String × α))
    (h : k' ≠ k) : mapGet k' (mapSet k v l) = mapGet k' l := by
  induction l with
  | nil =>
    simp only [mapSet, mapGet]
    rw [if_neg (fun hc : k = k' => h hc.symm)]
  | cons p t ih =>
    rcases p with ⟨k0, v0⟩
    by_cases hk : k0 = k
    · subst hk
      simp only [mapSet, if_pos rfl, mapGet]
      rw [if_neg (fun hc : k0 = k' => h hc.symm), if_neg (fun hc : k0 = k' => h hc.symm)]
    · simp only [mapSet, if_neg hk, mapGet]
      by_cases hk' : k0 = k'
      · rw [if_pos hk', if_pos hk']
      · rw [if_neg hk', if_neg hk', ih]

theorem mapGet_mapDelete_ne {α : Type} (k k' : String) (l : List (String × α))
    (h : k' ≠ k) : mapGet k' (mapDelete k l) = mapGet k' l := by
  induction l with
  | nil => rfl
  | cons p t ih =>
    rcases p with ⟨k0, v0⟩
    by_cases hk : k0 = k
    · subst hk
      simp only [mapDelete, if_pos rfl, if_true, mapGet]
      rw [if_neg (fun hc : k0 = k' => h hc.symm)]
    · simp only [mapDelete, if_neg hk, mapGet]
      by_cases hk' : k0 = k'
      · rw [if_pos hk', if_pos hk']
      · rw [if_neg hk', if_neg hk', ih]

theorem mapGet_eq_none_of_not_mem_keys {α : Type} (k : String) (l : List (String × α))
    (h : k ∉ l.map Prod.fst) : mapGet k l = none := by
  induction l with
  | nil => rfl
  | cons p t ih =>
    rcases p with ⟨k0, v0⟩
    simp only [List.map_cons, List.mem_cons] at h
    push_neg at h
    simp only [mapGet]
    rw [if_neg (fun hc : k0 = k => h.1 hc.symm), ih h.2]

/-- C4 counterexample: a cache at capacity (maxEntries 1) whose single —
hence least-recently-used — entry is keyed by the empty string: the JS
falsy guard `if (oldest)` skips the eviction, the insert proceeds, the
old entry survives and the cache ends up over capacity, so the set does
not evict the least-recently-used entry. -/
theorem c4_empty_key_set_evicts_nothing :
    ResponseCache.set { ttlMs := 900000, maxEntries := 1 } "k"
        { model := "m", content := "c", reasoning_content := none, usage := none,
          latency_ms := 1, finish_reason := none, warning := none, fallback_from := none }
        [("", { response := { model := "m0", content := "c0", reasoning_content := none,
                              usage := none, latency_ms := 2, finish_reason := none,
                              warning := none, fallback_from := none }, timestamp := 0 })] 5 =
      [("", { response := { model := "m0", content := "c0", reasoning_content := none,
                            usage := none, latency_ms := 2, finish_reason := none,
                            warning := none, fallback_from := none }, timestamp := 0 }),
       ("k", { response := { model := "m", content := "c", reasoning_content := none,
                             usage := none, latency_ms := 1, finish_reason := none,
                             warning := none, fallback_from := none }, timestamp := 5 })] := by
  decide

/-- C4 (amended): a set at (or over) capacity on a reachable cache
(distinct keys) whose oldest — least recently inserted or promoted —
entry has a NONEMPTY key evicts exactly that oldest entry: the result is
precisely delete-oldest-then-insert, every entry other than the oldest
and the written key is preserved with its value, the oldest key (when it
is not the one being written) is gone, and the written key holds the new
entry. When the oldest key is the empty string the eviction is skipped
(see the counterexample). -/
theorem c4_lru_eviction_amended (cfg : ResponseCacheConfig) (key : String)
    (resp : QueryResponse) (k0 : String) (e0 : CacheEntry)
    (t : List (String × CacheEntry)) (now : Int)
    (hcap : cfg.maxEntries ≤ ((k0, e0) :: t).length)
    (hk0 : k0 ≠ "")
    (hnodup : (((k0, e0) :: t).map Prod.fst).Nodup) :
    ResponseCache.set cfg key resp ((k0, e0) :: t) now =
      mapSet key { response := resp, timestamp := now } t ∧
    (∀ k', k' ≠ k0 → k' ≠ key →
      mapGet k' (ResponseCache.set cfg key resp ((k0, e0) :: t) now) =
        mapGet k' ((k0, e0) :: t)) ∧
    (k0 ≠ key →
      mapGet k0 (ResponseCache.set cfg key resp ((k0, e0) :: t) now) = none) ∧
    mapGet key (ResponseCache.set cfg key resp ((k0, e0) :: t) now) =
      some { response := resp, timestamp := now } := by
  have hdel : mapDelete k0 ((k0, e0) :: t) = t := by
    simp only [mapDelete, if_pos rfl, if_true]
  have hset : ResponseCache.set cfg key resp ((k0, e0) :: t) now =
      mapSet key { response := resp, timestamp := now } t := by
    simp only [ResponseCache.set]
    rw [if_pos hcap]
    simp only [List.head?_cons]
    rw [if_neg hk0, hdel]
  refine ⟨hset, ?_, ?_, ?_⟩
  · intro k' hk0' hkey
    rw [hset, mapGet_mapSet_ne _ _ _ _ hkey]
    simp only [mapGet]
    rw [if_neg (fun hc : k0 = k' => hk0' hc.symm)]
  · intro hkey
    rw [hset, mapGet_mapSet_ne _ _ _ _ hkey]
    apply mapGet_eq_none_of_not_mem_keys
    simp only [List.map_cons, List.nodup_cons] at hnodup
    exact hnodup.1
  · rw [hset, mapGet_mapSet_self]

/-- Witness for C4 (amended) at a concrete two-entry cache at capacity:
writing a fresh key evicts exactly the oldest entry keyed "a", preserves
the entry keyed "b", and stores the new entry under "k2". -/
theorem c4_lru_eviction_amended_witness :
    mapGet "a" (ResponseCache.set { ttlMs := 900000, maxEntries := 2 } "k2"
        { model := "m", content := "c", reasoning_content := none, usage := none,
          latency_ms := 1, finish_reason := none, warning := none, fallback_from := none }
        [("a", { response := { model := "m", content := "c", reasoning_content := none,
                               usage := none, latency_ms := 1, finish_reason := none,
                               warning := none, fallback_from := none }, timestamp := 0 }),
         ("b", { response := { model := "m", content := "c", reasoning_content := none,
                               usage := none, latency_ms := 1, finish_reason := none,
                               warning := none, fallback_from := none }, timestamp := 1 })] 5) =
      none ∧
    mapGet "b" (ResponseCache.set { ttlMs := 900000, maxEntries := 2 } "k2"
        { model := "m", content := "c", reasoning_content := none, usage := none,
          latency_ms := 1, finish_reason := none, warning := none, fallback_from := none }
        [("a", { response := { model := "m", content := "c", reasoning_content := none,
                               usage := none, latency_ms := 1, finish_reason := none,
                               warning := none, fallback_from := none }, timestamp := 0 }),
         ("b", { response := { model := "m", content := "c", reasoning_content := none,
                               usage := none, latency_ms := 1, finish_reason := none,
                               warning := none, fallback_from := none }, timestamp := 1 })] 5) =
      mapGet "b"
        [("a", { response := { model := "m", content := "c", reasoning_content := none,
                               usage := none, latency_ms := 1, finish_reason := none,
                               warning := none, fallback_from := none }, timestamp := 0 }),
         ("b", { response := { model := "m", content := "c", reasoning_content := none,
                               usage := none, latency_ms := 1, finish_reason := none,
                               warning := none, fallback_from := none }, timestamp := 1 })] := by
  have h := c4_lru_eviction_amended { ttlMs := 900000, maxEntries := 2 } "k2"
    { model := "m", content := "c", reasoning_content := none, usage := none,
      latency_ms := 1, finish_reason := none, warning := none, fallback_from := none }
    "a"
    { response := { model := "m", content := "c", reasoning_content := none,
                    usage := none, latency_ms := 1, finish_reason := none,
                    warning := none, fallback_from := none }, timestamp := 0 }
    [("b", { response := { model := "m", content := "c", reasoning_content := none,
                           usage := none, latency_ms := 1, finish_reason := none,
                           warning := none, fallback_from := none }, timestamp := 1 })] 5
    (by decide) (by decide) (by decide)
  exact ⟨h.2.2.1 (by decide), h.2.1 "b" (by decide) (by decide)⟩

/-! ## String-append lemmas for the cache key -/

theorem stringDataAppend (a b : String) : (a ++ b).data = a.data ++ b.data := by
  cases a
  cases b
  rfl

theorem stringDataInj (a b : String) (h : a.data = b.data) : a = b := by
  cases a
  cases b
  exact congrArg String.mk h

theorem pipeSplit : ∀ (l1 : List Char), '|' ∉ l1 → ∀ (l2 : List Char), '|' ∉ l2 →
    ∀ (r1 r2 : List Char), l1 ++ '|' :: r1 = l2 ++ '|' :: r2 → l1 = l2 ∧ r1 = r2 := by
  intro l1
  induction l1 with
  | nil =>
    intro _ l2 h2 r1 r2 h
    cases l2 with
    | nil =>
      simp only [List.nil_append] at h
      exact ⟨rfl, (List.cons.injEq _ _ _ _ ▸ h).2⟩
    | cons c l2' =>
      simp only [List.nil_append, List.cons_append, List.cons.injEq] at h
      exact absurd (h.1 ▸ List.mem_cons_self c l2') (fun hm => h2 (h.1 ▸ hm))
  | cons c l1' ih =>
    intro h1 l2 h2 r1 r2 h
    cases l2 with
    | nil =>
      simp only [List.cons_append, List.nil_append, List.cons.injEq] at h
      exact absurd (List.mem_cons_self c l1') (fun hm => h1 (h.1 ▸ hm))
    | cons d l2' =>
      simp only [List.cons_append, List.cons.injEq] at h
      have hmem1 : '|' ∉ l1' := fun hm => h1 (List.mem_cons_of_mem c hm)
      have hmem2 : '|' ∉ l2' := fun hm => h2 (List.mem_cons_of_mem d hm)
      obtain ⟨hl, hr⟩ := ih hmem1 l2' hmem2 r1 r2 h.2
      exact ⟨by rw [h.1, hl], hr⟩

/-- C6 counterexample: the delimiter joining model, prompt and options is
the pipe character, which CAN appear in model and prompt, so the keying
is not injective before hashing: the very pair the claim says must not
collide produces identical pre-digest strings for distinct triples. -/
theorem c6_rawKey_collision :
    ResponseCache.rawKey "a|b" "c" "\x7b\x7d" = ResponseCache.rawKey "a" "b|c" "\x7b\x7d" ∧
    ¬((("a|b" : String), ("c" : String)) = (("a" : String), ("b|c" : String))) := by
  decide

/-- C6 (amended): the cache key is the digest of model, prompt and the
options encoding joined with a pipe, and this pre-digest keying is
injective only on triples whose model and prompt contain no pipe
character; under that restriction, equal raw keys force equal
components. -/
theorem c6_rawKey_injective_when_pipe_free (m1 p1 o1 m2 p2 o2 : String)
    (hm1 : '|' ∉ m1.data) (hm2 : '|' ∉ m2.data)
    (hp1 : '|' ∉ p1.data) (hp2 : '|' ∉ p2.data)
    (h : ResponseCache.rawKey m1 p1 o1 = ResponseCache.rawKey m2 p2 o2) :
    m1 = m2 ∧ p1 = p2 ∧ o1 = o2 := by
  have hdata := congrArg String.data h
  simp only [ResponseCache.rawKey, stringDataAppend, List.append_assoc] at hdata
  simp only [List.singleton_append] at hdata
  obtain ⟨hm, hrest⟩ := pipeSplit m1.data hm1 m2.data hm2 _ _ hdata
  obtain ⟨hp, ho⟩ := pipeSplit p1.data hp1 p2.data hp2 _ _ hrest
  exact ⟨stringDataInj _ _ hm, stringDataInj _ _ hp, stringDataInj _ _ ho⟩

/-- Witness for C6 (amended): pipe-free components recover themselves. -/
theorem c6_rawKey_injective_when_pipe_free_witness :
    ("gpt-5" : String) = "gpt-5" ∧ ("hello" : String) = "hello" ∧
      ("\x7b\x7d" : String) = "\x7b\x7d" := by
  exact c6_rawKey_injective_when_pipe_free "gpt-5" "hello" "\x7b\x7d" "gpt-5" "hello" "\x7b\x7d"
    (by decide) (by decide) (by decide) (by decide) rfl

/-! ## Distillation gate lemmas -/

theorem gate_ratio_iff (o m : Nat) :
    ((o : ℚ) > (m : ℚ) * (6 / 5)) ↔ 5 * o > 6 * m := by
  rw [gt_iff_lt, gt_iff_lt]
  rw [show (m : ℚ) * (6 / 5) = (6 * m : ℚ) / 5 by push_cast; ring]
  rw [div_lt_iff₀ (by norm_num : (0 : ℚ) < 5)]
  constructor
  · intro h
    have h' : ((6 * m : Nat) : ℚ) < ((5 * o : Nat) : ℚ) := by push_cast; linarith
    exact_mod_cast h'
  · intro h
    have h' : ((6 * m : Nat) : ℚ) < ((5 * o : Nat) : ℚ) := by exact_mod_cast h
    push_cast at h'
    linarith

theorem shouldCompress_iff (r : QueryResponse) (b : Nat) :
    shouldCompress r b = true ↔ 5 * observedTokens r > 6 * b := by
  cases hu : r.usage with
  | none =>
    simp only [shouldCompress, observedTokens, hu, decide_eq_true_eq]
    exact gate_ratio_iff _ _
  | some u =>
    simp only [shouldCompress, observedTokens, hu]
    by_cases hc : u.completion_tokens ≠ 0
    · rw [if_pos hc, if_pos hc]
      simp only [decide_eq_true_eq]
      exact gate_ratio_iff _ _
    · rw [if_neg hc, if_neg hc]
      simp only [decide_eq_true_eq]
      exact gate_ratio_iff _ _

theorem compressResponse_skip (env : DistillerEnv) (r : QueryResponse) (b : Nat)
    (h : shouldCompress r b = false) :
    compressResponse env r b =
      { content := r.content, compressed := false, compressorModel := none,
        compressorLatency := none, originalTokens := none, compressedTokens := none,
        rawContent := none } := by
  simp [compressResponse, h]

theorem compressResponse_compressed_gate (env : DistillerEnv) (r : QueryResponse)
    (b : Nat) (h : (compressResponse env r b).compressed = true) :
    shouldCompress r b = true := by
  cases hsc : shouldCompress r b with
  | true => rfl
  | false =>
    rw [compressResponse_skip env r b hsc] at h
    simp at h

/-- C7: the distiller gate is exactly the strict ratio test — compression
runs iff the observed token count (reported nonzero completion tokens,
else the quarter-length estimate) strictly exceeds six fifths of the
budget; below or at the band the raw response is returned unchanged and
nothing is distilled; a 600-token response against a budget of 500 (ratio
exactly 1.2) is not distilled while 601 tokens is. -/
theorem c7_distillation_gate :
    (∀ (r : QueryResponse) (b : Nat),
      shouldCompress r b = true ↔ 5 * observedTokens r > 6 * b) ∧
    (∀ (env : DistillerEnv) (r : QueryResponse) (b : Nat), shouldCompress r b = false →
      compressResponse env r b =
        { content := r.content, compressed := false, compressorModel := none,
          compressorLatency := none, originalTokens := none, compressedTokens := none,
          rawContent := none }) ∧
    (∀ (env : DistillerEnv) (r : QueryResponse) (b : Nat),
      (compressResponse env r b).compressed = true → shouldCompress r b = true) ∧
    shouldCompress
      { model := "w", content := "x", reasoning_content := none,
        usage := some { prompt_tokens := 0, completion_tokens := 600, total_tokens := 600 },
        latency_ms := 1, finish_reason := none, warning := none, fallback_from := none }
      500 = false ∧
    shouldCompress
      { model := "w", content := "x", reasoning_content := none,
        usage := some { prompt_tokens := 0, completion_tokens := 601, total_tokens := 601 },
        latency_ms := 1, finish_reason := none, warning := none, fallback_from := none }
      500 = true := by
  refine ⟨shouldCompress_iff, compressResponse_skip, compressResponse_compressed_gate, ?_, ?_⟩
  · rw [Bool.eq_false_iff]
    intro hc
    have h1 := (shouldCompress_iff _ _).mp hc
    have hobs : observedTokens
        { model := "w", content := "x", reasoning_content := none,
          usage := some { prompt_tokens := 0, completion_tokens := 600, total_tokens := 600 },
          latency_ms := 1, finish_reason := none, warning := none, fallback_from := none } =
        600 := rfl
    rw [hobs] at h1
    omega
  · rw [shouldCompress_iff]
    have hobs : observedTokens
        { model := "w", content := "x", reasoning_content := none,
          usage := some { prompt_tokens := 0, completion_tokens := 601, total_tokens := 601 },
          latency_ms := 1, finish_reason := none, warning := none, fallback_from := none } =
        601 := rfl
    rw [hobs]
    omega

/-- Witness for C7 at the exact skip boundary: the gate rejects the
600-token response against a 500-token budget and the distiller returns
the raw content unchanged. -/
theorem c7_distillation_gate_witness :
    shouldCompress
      { model := "w", content := "x", reasoning_content := none,
        usage := some { prompt_tokens := 0, completion_tokens := 600, total_tokens := 600 },
        latency_ms := 1, finish_reason := none, warning := none, fallback_from := none }
      500 = false ∧
    compressResponse { available := [], distillerReply := none }
      { model := "w", content := "x", reasoning_content := none,
        usage := some { prompt_tokens := 0, completion_tokens := 600, total_tokens := 600 },
        latency_ms := 1, finish_reason := none, warning := none, fallback_from := none }
      500 =
      { content := "x", compressed := false, compressorModel := none,
        compressorLatency := none, originalTokens := none, compressedTokens := none,
        rawContent := none } := by
  have h := c7_distillation_gate
  exact ⟨h.2.2.2.1, h.2.1 { available := [], distillerReply := none } _ 500 h.2.2.2.1⟩

/-! ## Consensus keyword heuristic lemmas -/

theorem overlap_ratio_iff (o mx : Nat) (hmx : 0 < mx) :
    ((o : ℚ) / (mx : ℚ) > 3 / 10) ↔ 10 * o > 3 * mx := by
  rw [gt_iff_lt, gt_iff_lt,
    div_lt_div_iff (by norm_num : (0 : ℚ) < 10) (by exact_mod_cast hmx)]
  constructor
  · intro h
    have h' : ((3 * mx : Nat) : ℚ) < ((10 * o : Nat) : ℚ) := by push_cast; linarith
    exact_mod_cast h'
  · intro h
    have h' : ((3 * mx : Nat) : ℚ) < ((10 * o : Nat) : ℚ) := by exact_mod_cast h
    push_cast at h'
    linarith

theorem responsesAgree_char (a b : String) :
    responsesAgreeByKeywords a b = true ↔
      keywordsOf a ≠ [] ∧ keywordsOf b ≠ [] ∧
      10 * ((keywordsOf a).filter (fun w => (keywordsOf b).contains w)).length >
        3 * max (keywordsOf a).length (keywordsOf b).length := by
  simp only [responsesAgreeByKeywords]
  by_cases hA : (keywordsOf a).length = 0
  · rw [if_pos (Or.inl hA)]
    rw [List.length_eq_zero] at hA
    simp [hA]
  · by_cases hB : (keywordsOf b).length = 0
    · rw [if_pos (Or.inr hB)]
      rw [List.length_eq_zero] at hB
      simp [hB]
    · rw [if_neg (by push_neg; exact ⟨hA, hB⟩)]
      simp only [decide_eq_true_eq]
      rw [← Nat.cast_max,
        overlap_ratio_iff _ _ (lt_of_lt_of_le (Nat.pos_of_ne_zero hA) (le_max_left _ _))]
      constructor
      · intro h
        exact ⟨fun hc => hA (by rw [hc]; rfl), fun hc => hB (by rw [hc]; rfl), h⟩
      · intro h
        exact h.2.2

/-- C8 counterexample: with responses "apple berry candy" and
"apple delta eagle" the keyword sets are {apple, berry, candy} and
{apple, delta, eagle}; the source declares agreement (overlap 1 over the
larger size 3 gives one third, above 0.3) while the Jaccard similarity
named by the claim is 1/5, below the 0.3 threshold — so the code does not
decide agreement by intersection-over-union. -/
theorem c8_overlap_is_not_jaccard :
    responsesAgreeByKeywords "apple berry candy" "apple delta eagle" = true ∧
    ¬(jaccardSimilaritySpec "apple berry candy" "apple delta eagle" > 3 / 10) := by
  constructor
  · rw [responsesAgree_char]
    exact ⟨by decide, by decide, by decide⟩
  · intro hgt
    have hval : jaccardSimilaritySpec "apple berry candy" "apple delta eagle" = 1 / 5 := by
      simp only [jaccardSimilaritySpec]
      rw [show ((keywordsOf "apple berry candy").filter
          (fun w => (keywordsOf "apple delta eagle").contains w)).length = 1 from rfl]
      rw [show ((keywordsOf "apple berry candy") ++
          (keywordsOf "apple delta eagle").filter
            (fun w => !((keywordsOf "apple berry candy").contains w))).length = 5 from rfl]
      norm_num
    rw [hval] at hgt
    norm_num at hgt

/-- C8 (amended): with the judge unavailable or failed, the fallback
strips words of at most 4 letters, deduplicates, and — with the first
successful response as the pivot baseline — declares agreement for each
later response exactly when both keyword sets are nonempty and the
overlap count divided by the LARGER set size (not the Jaccard
intersection-over-union) exceeds 3/10. -/
theorem c8_keyword_fallback_heuristic :
    (∀ a b : String,
      responsesAgreeByKeywords a b = true ↔
        keywordsOf a ≠ [] ∧ keywordsOf b ≠ [] ∧
        10 * ((keywordsOf a).filter (fun w => (keywordsOf b).contains w)).length >
          3 * max (keywordsOf a).length (keywordsOf b).length) ∧
    (∀ (baseline : ModelVote) (rest : List ModelVote),
      keywordFallback (baseline :: rest) =
        (baseline :: rest.filter (fun v => responsesAgreeByKeywords baseline.content v.content),
         rest.filter (fun v => !(responsesAgreeByKeywords baseline.content v.content)))) :=
  ⟨responsesAgree_char, fun _ _ => rfl⟩

/-- Witness for C8 (amended): identical responses agree — the overlap
equals the set size, and thirty exceeds nine. -/
theorem c8_keyword_fallback_heuristic_witness :
    responsesAgreeByKeywords "apple berry candy" "apple berry candy" = true :=
  (c8_keyword_fallback_heuristic.1 "apple berry candy" "apple berry candy").mpr
    ⟨by decide, by decide, by decide⟩

/-! ## Compressor-model selection lemmas -/

theorem findSome?_mem {α β : Type} (f : α → Option β) :
    ∀ (l : List α) (b : β), l.findSome? f = some b → ∃ a ∈ l, f a = some b := by
  intro l
  induction l with
  | nil => intro b h; simp [List.findSome?] at h
  | cons x t ih =>
    intro b h
    cases hx : f x with
    | some y =>
      have hy : List.findSome? f (x :: t) = some y := by
        rw [List.findSome?_cons, hx]
      rw [hy] at h
      exact ⟨x, List.mem_cons_self x t, by rw [hx, h]⟩
    | none =>
      have hy : List.findSome? f (x :: t) = List.findSome? f t := by
        rw [List.findSome?_cons, hx]
      rw [hy] at h
      obtain ⟨a, ha, hfa⟩ := ih b h
      exact ⟨a, List.mem_cons_of_mem x ha, hfa⟩

theorem isExcluded_self (ex : String) (hex : ex ≠ "") :
    isExcluded (some ex) ex = true := by
  simp [isExcluded, hex]

/-- C9 counterexample: when the worker model is the only available model,
pickCompressorModel falls through the preferred list and the non-excluded
fallback and — as the source comments, "Last resort: even the same
model" — returns the worker itself as the distiller. -/
theorem c9_worker_selected_as_distiller :
    pickCompressorModel [{ id := "gpt-5", name := "gpt-5", provider := "cliproxy" }]
      (some "gpt-5") = some "gpt-5" := by decide

/-- C9 (amended): whenever at least one available model is not excluded
as the worker (differing case-insensitively from both the worker id and
its bare unprefixed name), the selected distiller is never the worker;
only when every catalog entry is excluded does the last resort return
the first available model, which can be the worker itself. -/
theorem c9_distiller_avoids_worker (available : List ModelInfo) (ex : String)
    (hex : ex ≠ "")
    (h : ∃ m ∈ available, isExcluded (some ex) m.id = false) :
    ∀ id, pickCompressorModel available (some ex) = some id →
      isExcluded (some ex) id = false ∧ id ≠ ex := by
  intro id hpick
  obtain ⟨m0, hm0, hm0x⟩ := h
  have hne : ¬available.isEmpty := by
    cases available with
    | nil => cases hm0
    | cons a t => simp [List.isEmpty]
  have hmain : isExcluded (some ex) id = false := by
    rw [pickCompressorModel, if_neg hne] at hpick
    cases hfs : PREFERRED_COMPRESSOR_MODELS.findSome? (fun preferred =>
        (available.find? (fun m =>
          occursIn preferred.data (lowerChars m.id) && !(isExcluded (some ex) m.id))).map
          (fun m => m.id)) with
    | some id0 =>
      rw [hfs] at hpick
      obtain rfl : id0 = id := Option.some.inj hpick
      obtain ⟨pref, _, hfind⟩ := findSome?_mem _ _ _ hfs
      cases hf : available.find? (fun m =>
          occursIn pref.data (lowerChars m.id) && !(isExcluded (some ex) m.id)) with
      | none => rw [hf] at hfind; cases hfind
      | some m1 =>
        rw [hf] at hfind
        have hp := List.find?_some hf
        simp only [Bool.and_eq_true, Bool.not_eq_true'] at hp
        have hm1 : m1.id = id0 := by
          simpa using hfind
        rw [← hm1]
        exact hp.2
    | none =>
      rw [hfs] at hpick
      cases hf2 : available.find? (fun m => !(isExcluded (some ex) m.id)) with
      | some m1 =>
        rw [hf2] at hpick
        obtain rfl : m1.id = id := Option.some.inj hpick
        have hp := List.find?_some hf2
        simpa only [Bool.not_eq_true'] using hp
      | none =>
        exfalso
        have := List.find?_eq_none.mp hf2 m0 hm0
        simp only [Bool.not_eq_true', Bool.not_eq_false] at this
        rw [hm0x] at this
        cases this
  refine ⟨hmain, ?_⟩
  intro hc
  rw [hc, isExcluded_self ex hex] at hmain
  cases hmain

/-- Witness for C9 (amended): with a flash-class model alongside the
worker, the selected distiller is that model, not the worker. -/
theorem c9_distiller_avoids_worker_witness :
    isExcluded (some "gpt-5") "gemini-2.5-flash" = false ∧
      ("gemini-2.5-flash" : String) ≠ "gpt-5" :=
  c9_distiller_avoids_worker
    [{ id := "gpt-5", name := "gpt-5", provider := "cliproxy" },
     { id := "gemini-2.5-flash", name := "g", provider := "cliproxy" }]
    "gpt-5" (by decide)
    ⟨{ id := "gemini-2.5-flash", name := "g", provider := "cliproxy" },
      by decide, by decide⟩
    "gemini-2.5-flash" (by decide)

/-! ## Orchestrator latency lemmas -/

theorem validateResponse_ok_latency (x y : QueryResponse)
    (h : validateResponse x = Except.ok y) : y.latency_ms = x.latency_ms := by
  unfold validateResponse at h
  by_cases h1 : (trimChars x.content.data).length < 10 ∧ (x.reasoning_content.getD "") = ""
  · rw [if_pos h1] at h
    exact Except.noConfusion h
  · rw [if_neg h1] at h
    by_cases h2 : x.finish_reason = some "length"
    · rw [if_pos h2] at h
      injection h with h3
      rw [← h3]
    · rw [if_neg h2] at h
      injection h with h3
      rw [← h3]

theorem buildResponse_latency (m : String) (d : ChatCompletionData) (t1 t2 : Int)
    (r : QueryResponse) (h : CLIProxyAPIProvider.buildResponse m d t1 t2 = Except.ok r) :
    r.latency_ms = t2 - t1 := by
  simp only [CLIProxyAPIProvider.buildResponse] at h
  have := validateResponse_ok_latency _ r h
  simpa using this

/-- C2 counterexample: an inner backend call that starts and finishes in
the same millisecond (startTime = endTime = 100) reports latency_ms = 0;
SmartProvider.query dispatches it on a cache miss (cacheHit is false) and
returns it unchanged, so a response with latency_ms = 0 is emitted that
was NOT served from the ResponseCache — the claimed equivalence fails in
the backward direction. -/
theorem c2_zero_latency_without_cache_hit :
    SmartProvider.query DEFAULT_CONFIG { circuits := [], cache := [] }
      "m1" "p" "\x7b\x7d" 100
      (CLIProxyAPIProvider.buildResponse "m1" helloChatData 100 100) =
      { result := Except.ok (helloResponse 0),
        state := { circuits := [],
                   cache := [("m1|p|\x7b\x7d",
                              { response := helloResponse 0, timestamp := 100 })] },
        cacheHit := false } := by
  decide

/-- C2 (amended): cache hits always carry latency_ms = 0, and a cache
miss returns the inner backend response unchanged, whose latency_ms is
the backend-measured wall time (receive minus send) — which is 0 whenever
the call completes within the same millisecond, so latency_ms = 0 is
implied by, but does not imply, a cache hit. -/
theorem c2_latency_zero_iff_amended (cfg : SmartConfig) (st : SmartState)
    (model prompt optionsEnc : String) (now : Int)
    (inner : Except QueryError QueryResponse) :
    ((SmartProvider.query cfg st model prompt optionsEnc now inner).cacheHit = true →
      ∃ r, (SmartProvider.query cfg st model prompt optionsEnc now inner).result =
        Except.ok r ∧ r.latency_ms = 0) ∧
    ((SmartProvider.query cfg st model prompt optionsEnc now inner).cacheHit = false →
      ∀ r, (SmartProvider.query cfg st model prompt optionsEnc now inner).result =
        Except.ok r → inner = Except.ok r) ∧
    (∀ (m : String) (d : ChatCompletionData) (t1 t2 : Int) (r : QueryResponse),
      CLIProxyAPIProvider.buildResponse m d t1 t2 = Except.ok r →
        r.latency_ms = t2 - t1) := by
  have hsplit : ∀ P : QueryOutcome → Prop,
      (∀ circuits' : List (String × ModelCircuit),
        P { result := Except.error (QueryError.unavailable model),
            state := { circuits := circuits', cache := st.cache },
            cacheHit := false }) →
      (∀ (cached : QueryResponse) (cache1 : List (String × CacheEntry))
          (circuits' : List (String × ModelCircuit)),
        P { result := Except.ok { cached with latency_ms := 0 },
            state := { circuits := circuits', cache := cache1 },
            cacheHit := true }) →
      (∀ (r : QueryResponse) (circuits' : List (String × ModelCircuit))
          (cache2 : List (String × CacheEntry)), inner = Except.ok r →
        P { result := Except.ok r,
            state := { circuits := circuits', cache := cache2 },
            cacheHit := false }) →
      (∀ (e : QueryError) (cache1 : List (String × CacheEntry))
          (circuits' : List (String × ModelCircuit)), inner = Except.error e →
        P { result := Except.error e,
            state := { circuits := circuits', cache := cache1 },
            cacheHit := false }) →
      P (SmartProvider.query cfg st model prompt optionsEnc now inner) := by
    intro P hgate hhit hok herr
    simp only [SmartProvider.query]
    cases hgb : (if cfg.enableCircuitBreaker then
        CircuitBreaker.isOpenMap cfg.cb st.circuits model now
      else (false, st.circuits)).1 with
    | true =>
      rw [if_pos rfl]
      exact hgate _
    | false =>
      rw [if_neg Bool.false_ne_true]
      rcases hco : (if cfg.enableCache = true then
          ResponseCache.get { ttlMs := cfg.cacheTtlMs, maxEntries := cfg.cacheMaxEntries }
            (ResponseCache.rawKey model prompt optionsEnc) st.cache now
        else (none, st.cache)) with ⟨co, cache1⟩
      cases co with
      | some cached =>
        exact hhit cached cache1 _
      | none =>
        cases inner with
        | ok r => exact hok r _ _ rfl
        | error e => exact herr e cache1 _ rfl
  refine ⟨?_, ?_, buildResponse_latency⟩
  · apply hsplit (fun o => o.cacheHit = true →
      ∃ r, o.result = Except.ok r ∧ r.latency_ms = 0)
    · intro _ h
      exact absurd h (by simp)
    · intro cached cache1 _ _
      exact ⟨_, rfl, rfl⟩
    · intro r _ _ _ h
      exact absurd h (by simp)
    · intro e _ _ _ h
      exact absurd h (by simp)
  · apply hsplit (fun o => o.cacheHit = false →
      ∀ r, o.result = Except.ok r → inner = Except.ok r)
    · intro _ _ r hr
      exact Except.noConfusion hr
    · intro cached cache1 _ h
      exact absurd h (by simp)
    · intro r _ _ hinner _ r' hr
      injection hr with hr'
      rw [← hr']
      exact hinner
    · intro e _ _ _ _ r hr
      exact Except.noConfusion hr

/-- Witness for C2 (amended): a preloaded cache entry is served with
latency_ms = 0. -/
theorem c2_latency_zero_iff_amended_witness :
    (SmartProvider.query DEFAULT_CONFIG
      { circuits := [],
        cache := [("m1|p|\x7b\x7d",
                   { response := helloResponse 400, timestamp := 50 })] }
      "m1" "p" "\x7b\x7d" 100 (Except.error (QueryError.backend "down"))).cacheHit =
      true ∧
    ∃ r, (SmartProvider.query DEFAULT_CONFIG
      { circuits := [],
        cache := [("m1|p|\x7b\x7d",
                   { response := helloResponse 400, timestamp := 50 })] }
      "m1" "p" "\x7b\x7d" 100 (Except.error (QueryError.backend "down"))).result =
        Except.ok r ∧ r.latency_ms = 0 := by
  refine ⟨by decide, ?_⟩
  exact (c2_latency_zero_iff_amended DEFAULT_CONFIG
    { circuits := [],
      cache := [("m1|p|\x7b\x7d",
                 { response := helloResponse 400, timestamp := 50 })] }
    "m1" "p" "\x7b\x7d" 100 (Except.error (QueryError.backend "down"))).1 (by decide)

/-- C10: on a cache hit (circuit gate passing, cache enabled, key
present and fresh), SmartProvider.query returns exactly the stored
response with only latency_ms overwritten to 0 — model, content,
reasoning_content, usage, finish_reason, warning and fallback_from are
all taken unchanged from the cached response — and the cache afterwards
still holds the very same entry (unchanged response and timestamp) under
the key; only its position in the LRU order moves. -/
theorem c10_cache_hit_frame (cfg : SmartConfig) (st : SmartState)
    (model prompt optionsEnc : String) (now : Int)
    (inner : Except QueryError QueryResponse) (entry : CacheEntry)
    (hgate : (if cfg.enableCircuitBreaker then
        CircuitBreaker.isOpenMap cfg.cb st.circuits model now
      else (false, st.circuits)).1 = false)
    (hcache : cfg.enableCache = true)
    (hentry : mapGet (ResponseCache.rawKey model prompt optionsEnc) st.cache =
      some entry)
    (hfresh : ¬(now - entry.timestamp > cfg.cacheTtlMs)) :
    (SmartProvider.query cfg st model prompt optionsEnc now inner).result =
      Except.ok { entry.response with latency_ms := 0 } ∧
    (SmartProvider.query cfg st model prompt optionsEnc now inner).cacheHit = true ∧
    mapGet (ResponseCache.rawKey model prompt optionsEnc)
      (SmartProvider.query cfg st model prompt optionsEnc now inner).state.cache =
      some entry := by
  have hget : ResponseCache.get { ttlMs := cfg.cacheTtlMs, maxEntries := cfg.cacheMaxEntries }
      (ResponseCache.rawKey model prompt optionsEnc) st.cache now =
      (some entry.response,
        mapSet (ResponseCache.rawKey model prompt optionsEnc) entry
          (mapDelete (ResponseCache.rawKey model prompt optionsEnc) st.cache)) := by
    simp only [ResponseCache.get, hentry]
    rw [if_neg hfresh]
  simp only [SmartProvider.query]
  rw [hgate, if_neg Bool.false_ne_true, hcache, if_pos rfl, hget]
  exact ⟨rfl, rfl, mapGet_mapSet_self _ _ _⟩

/-- Witness for C10 at a preloaded cache: the stored 400 ms response is
served as the same response with latency 0 and the entry survives. -/
theorem c10_cache_hit_frame_witness :
    (SmartProvider.query DEFAULT_CONFIG
      { circuits := [],
        cache := [("m1|q|\x7b\x7d",
                   { response := helloResponse 400, timestamp := 50 })] }
      "m1" "q" "\x7b\x7d" 100 (Except.error (QueryError.backend "down"))).result =
      Except.ok { helloResponse 400 with latency_ms := 0 } ∧
    (SmartProvider.query DEFAULT_CONFIG
      { circuits := [],
        cache := [("m1|q|\x7b\x7d",
                   { response := helloResponse 400, timestamp := 50 })] }
      "m1" "q" "\x7b\x7d" 100 (Except.error (QueryError.backend "down"))).cacheHit =
      true ∧
    mapGet (ResponseCache.rawKey "m1" "q" "\x7b\x7d")
      (SmartProvider.query DEFAULT_CONFIG
        { circuits := [],
          cache := [("m1|q|\x7b\x7d",
                     { response := helloResponse 400, timestamp := 50 })] }
        "m1" "q" "\x7b\x7d" 100
        (Except.error (QueryError.backend "down"))).state.cache =
      some { response := helloResponse 400, timestamp := 50 } :=
  c10_cache_hit_frame DEFAULT_CONFIG
    { circuits := [],
      cache := [("m1|q|\x7b\x7d",
                 { response := helloResponse 400, timestamp := 50 })] }
    "m1" "q" "\x7b\x7d" 100 (Except.error (QueryError.backend "down"))
    { response := helloResponse 400, timestamp := 50 }
    (by decide) rfl (by decide) (by decide)

/-! ## Model-list filtering lemmas -/

theorem filter_contains_nil (l : List ModelInfo) :
    l.filter (fun m => !(([] : List String).contains m.id)) = l := by
  induction l with
  | nil => rfl
  | cons x t ih => simp [List.filter_cons, ih]

/-- C3 counterexample: the model was queried (and broke its circuit)
under the bare id "gpt-5", while the catalog lists it as
"cliproxy/gpt-5"; getOpenModels reports the bare id, the filter compares
exact id strings, and listModels returns the prefixed catalog entry even
though the underlying model's circuit is open and still in cooldown. -/
theorem c3_open_model_survives_under_prefix :
    (SmartProvider.listModels DEFAULT_CONFIG
      [("gpt-5", { state := CircuitState.opened, failures := 3, lastFailureTime := 0 })]
      { models := none, timestamp := 0 }
      [{ id := "cliproxy/gpt-5", name := "gpt-5", provider := "cliproxy" }] 1).1 =
      [{ id := "cliproxy/gpt-5", name := "gpt-5", provider := "cliproxy" }] ∧
    CircuitBreaker.getOpenModels { maxFailures := 3, cooldownMs := 60000 }
      [("gpt-5", { state := CircuitState.opened, failures := 3, lastFailureTime := 0 })]
      1 = ["gpt-5"] ∧
    (CircuitBreaker.isOpenMap { maxFailures := 3, cooldownMs := 60000 }
      [("gpt-5", { state := CircuitState.opened, failures := 3, lastFailureTime := 0 })]
      "gpt-5" 1).1 = true ∧
    lastSegment "cliproxy/gpt-5" = "gpt-5" := by
  decide

/-- C3 (amended): with the circuit breaker enabled, listModels filters
the resolved catalog (cached or fresh) by exact id string against
getOpenModels: no returned entry has its exact id currently open, and
that is the whole filter — an id open under a different alias (bare
versus provider-prefixed) is not removed. -/
theorem c3_listModels_filters_exact_ids (cfg : SmartConfig)
    (circuits : List (String × ModelCircuit)) (mlc : ModelListCacheState)
    (innerModels : List ModelInfo) (now : Int)
    (hcb : cfg.enableCircuitBreaker = true) :
    (SmartProvider.listModels cfg circuits mlc innerModels now).1 =
      (SmartProvider.resolveCatalog cfg mlc innerModels now).1.filter
        (fun m => !((CircuitBreaker.getOpenModels cfg.cb circuits now).contains m.id)) ∧
    ∀ m ∈ (SmartProvider.listModels cfg circuits mlc innerModels now).1,
      m.id ∉ CircuitBreaker.getOpenModels cfg.cb circuits now := by
  have heq : (SmartProvider.listModels cfg circuits mlc innerModels now).1 =
      (SmartProvider.resolveCatalog cfg mlc innerModels now).1.filter
        (fun m => !((CircuitBreaker.getOpenModels cfg.cb circuits now).contains m.id)) := by
    simp only [SmartProvider.listModels, hcb]
    rw [if_pos trivial]
    by_cases hopen : CircuitBreaker.getOpenModels cfg.cb circuits now = []
    · rw [hopen, if_neg (fun hc : ([] : List String) ≠ [] => hc rfl), filter_contains_nil]
    · rw [if_pos hopen]
  refine ⟨heq, ?_⟩
  intro m hm
  rw [heq, List.mem_filter] at hm
  have hb := hm.2
  rw [Bool.not_eq_true'] at hb
  intro hmem
  have hc : (CircuitBreaker.getOpenModels cfg.cb circuits now).contains m.id = true :=
    List.elem_iff.mpr hmem
  rw [hb] at hc
  exact Bool.noConfusion hc

/-- Witness for C3 (amended) at a one-model catalog with the circuit for
the exact catalog id open: the entry is filtered out. -/
theorem c3_listModels_filters_exact_ids_witness :
    (SmartProvider.listModels DEFAULT_CONFIG
      [("cliproxy/gpt-5",
        { state := CircuitState.opened, failures := 3, lastFailureTime := 0 })]
      { models := none, timestamp := 0 }
      [{ id := "cliproxy/gpt-5", name := "gpt-5", provider := "cliproxy" }] 1).1 =
      ([{ id := "cliproxy/gpt-5", name := "gpt-5", provider := "cliproxy" }] :
        List ModelInfo).filter
        (fun m => !((CircuitBreaker.getOpenModels { maxFailures := 3, cooldownMs := 60000 }
          [("cliproxy/gpt-5",
            { state := CircuitState.opened, failures := 3, lastFailureTime := 0 })]
          1).contains m.id)) ∧
    ∀ m ∈ (SmartProvider.listModels DEFAULT_CONFIG
      [("cliproxy/gpt-5",
        { state := CircuitState.opened, failures := 3, lastFailureTime := 0 })]
      { models := none, timestamp := 0 }
      [{ id := "cliproxy/gpt-5", name := "gpt-5", provider := "cliproxy" }] 1).1,
      m.id ∉ CircuitBreaker.getOpenModels { maxFailures := 3, cooldownMs := 60000 }
        [("cliproxy/gpt-5",
          { state := CircuitState.opened, failures := 3, lastFailureTime := 0 })] 1 := by
  have h := c3_listModels_filters_exact_ids DEFAULT_CONFIG
    [("cliproxy/gpt-5",
      { state := CircuitState.opened, failures := 3, lastFailureTime := 0 })]
    { models := none, timestamp := 0 }
    [{ id := "cliproxy/gpt-5", name := "gpt-5", provider := "cliproxy" }] 1 rfl
  exact h

end HydraMCP
